import Mathlib

/-!
Verification development for the FinMCP provider-intelligence core
(`src/provider_intelligence.py` together with the static provider registry
`API_CONFIGS` from `src/api_docs_server.py`).

The shallow embedding below translates the query classifier
(`QueryClassifier`) and the provider matcher (`ProviderMatcher`) into Lean.
Conventions of the embedding:

* Python strings are Lean `String`s; Python `kw in s` (substring test) is
  `substr kw s` below; `str.lower()` is `pyLower` (per-character ASCII
  lowercasing, which coincides with Python on the ASCII keyword tables).
* Python dicts with fixed key sets become structures; the registry dict
  becomes an ordered association list, preserving insertion order.  Only the
  registry fields that the classifier/matcher core reads are carried
  (name, data_types, geographic_coverage, requires_api_key, free_tier,
  local_available, response_time); fields used solely by the out-of-scope
  documentation fetcher (base_url, docs_paths, rate_limit, ...) are omitted.
* Python float scores become exact rationals (`Rat`); every score increment
  in the source is an exact decimal literal.
* `re.findall(r'\b[A-Z]{1,5}\b', q)` is modelled operationally by `wordRuns`:
  a word-boundary-delimited match of `[A-Z]{1,5}` is precisely a maximal run
  of word characters that consists of 1-5 uppercase ASCII letters.
  `isWordChar` models the ASCII core of the regex class `\w`.
* `list.sort(key=..., reverse=True)` (a stable sort) is modelled by the
  stable insertion sort `sortDesc`; the slice `matches[:top_n]` for an
  arbitrary Python int `top_n` is `pySlice`.
-/

open scoped List

/-- Python `s.lower()` restricted to ASCII case mapping. -/
def pyLower (s : String) : String := ⟨s.data.map Char.toLower⟩

/-- Python substring containment `needle in hay`. -/
def substr (needle hay : String) : Prop := needle.data <:+: hay.data

instance instSubstrDecidable (a b : String) : Decidable (substr a b) := by
  unfold substr; infer_instance

/-- `QueryClassifier.data_type_keywords` (source lines 18-32). -/
def data_type_keywords : List (String × List String) := [
  ("stocks", ["stock", "share", "equity", "ticker", "symbol", "price", "volume", "market cap"]),
  ("options", ["option", "call", "put", "strike", "expiry", "iv", "implied volatility"]),
  ("crypto", ["crypto", "bitcoin", "btc", "ethereum", "eth", "cryptocurrency", "defi", "nft"]),
  ("forex", ["forex", "fx", "currency", "exchange rate", "usd", "eur", "gbp", "jpy"]),
  ("economic_indicators", ["gdp", "growth", "economic", "indicator", "macro"]),
  ("inflation", ["inflation", "cpi", "consumer price", "pce", "deflator"]),
  ("employment", ["employment", "unemployment", "jobs", "payroll", "labor", "nfp"]),
  ("interest_rates", ["interest rate", "fed funds", "libor", "sofr", "yield", "bond", "treasury"]),
  ("housing", ["housing", "home", "mortgage", "real estate", "construction"]),
  ("earnings", ["earnings", "revenue", "profit", "eps", "pe ratio", "income"]),
  ("fundamentals", ["fundamental", "balance sheet", "cash flow", "ratios"]),
  ("filings", ["filing", "10-k", "10-q", "8-k", "sec", "edgar"]),
  ("news", ["news", "headline", "article", "sentiment", "mention"])]

/-- `QueryClassifier.geographic_keywords` (source lines 35-42). -/
def geographic_keywords : List (String × List String) := [
  ("US", ["us", "usa", "united states", "america", "american", "nasdaq", "nyse", "s&p"]),
  ("EU", ["eu", "europe", "european", "eurozone", "ecb"]),
  ("UK", ["uk", "britain", "british", "london", "ftse"]),
  ("Japan", ["japan", "japanese", "tokyo", "nikkei", "yen"]),
  ("China", ["china", "chinese", "shanghai", "shenzhen", "yuan", "rmb"]),
  ("Global", ["global", "world", "international", "worldwide"])]

/-- `QueryClassifier.preference_keywords` (source lines 45-50). -/
def preference_keywords : List (String × List String) := [
  ("free", ["free", "no cost", "without paying", "no api key"]),
  ("fast", ["fast", "quick", "instant", "immediate", "low latency"]),
  ("comprehensive", ["comprehensive", "complete", "all", "everything", "detailed"]),
  ("official", ["official", "government", "authoritative", "primary source"])]

/-- The per-table detection loop shared by `_extract_data_types`,
`_extract_geography` and `_extract_preferences`: collect, in table order, every
tag one of whose trigger keywords occurs in the query. -/
def extractByTable (table : List (String × List String)) (query : String) : List String :=
  (table.filter (fun tk => tk.2.any (fun kw => decide (substr kw query)))).map Prod.fst

/-- `QueryClassifier._extract_data_types` (lines 77-85); argument is the
already-lowercased query. -/
def extract_data_types (query : String) : List String :=
  extractByTable data_type_keywords query

/-- `QueryClassifier._extract_geography` (lines 87-95). -/
def extract_geography (query : String) : List String :=
  let found_geo := extractByTable geographic_keywords query
  if found_geo = [] then ["Global"] else found_geo

/-- `QueryClassifier._extract_preferences` (lines 97-105). -/
def extract_preferences (query : String) : List String :=
  extractByTable preference_keywords query

/-- The ASCII core of the regex word-character class used by the word
boundaries in the ticker pattern. -/
def isWordChar (c : Char) : Bool := c.isAlphanum || c == '_'

/-- Maximal runs of word characters in a character list.  A word-boundary
match of `[A-Z]{1,5}` is exactly such a run that happens to be 1-5 uppercase
letters, so this is the operational content of
`re.findall(r'\b[A-Z]{1,5}\b', query)`. -/
def wordRuns (l : List Char) : List (List Char) :=
  match l with
  | [] => []
  | c :: cs =>
    if isWordChar c then
      (c :: cs.takeWhile isWordChar) :: wordRuns (cs.dropWhile isWordChar)
    else
      wordRuns cs
termination_by l.length
decreasing_by
  · have h1 : (cs.dropWhile isWordChar).length ≤ cs.length :=
      (List.dropWhile_sublist isWordChar).length_le
    simp only [List.length_cons]
    omega
  · simp

/-- The stop list `common_words` of `_extract_symbols` (line 114). -/
def common_words : List String :=
  ["US", "UK", "EU", "GDP", "CPI", "API", "REST", "JSON", "CSV"]

/-- `QueryClassifier._extract_symbols` (lines 107-117): find the
word-boundary-delimited runs of 1-5 uppercase letters in the original-case
query, drop the stop list, deduplicate (`list(set(...))`). -/
def extract_symbols (query : String) : List String :=
  let potential_tickers := ((wordRuns query.data).filter
    (fun t => t.length ≤ 5 && t.all Char.isUpper)).map (fun t => String.mk t)
  let tickers := potential_tickers.filter (fun t => !(t ∈ common_words : Bool))
  tickers.dedup

/-- The classification record built by `classify_query` (lines 62-75). -/
structure Classification where
  original_query : String
  data_types : List String
  geography : List String
  preferences : List String
  specific_symbols : List String
  reasoning : String
deriving DecidableEq

/-- `QueryClassifier._generate_reasoning` (lines 119-145), as a function of the
already-extracted fields.  The join separator reproduces the bytes present in
the source file. -/
def generate_reasoning (data_types geography preferences : List String) : String :=
  let part1 :=
    if data_types ≠ [] then
      "User is looking for " ++ String.intercalate ", " data_types ++ " data"
    else
      "No specific data type identified, will search broadly"
  let parts2 :=
    if geography ≠ ["Global"] then
      ["Geographic focus: " ++ String.intercalate ", " geography]
    else []
  let parts3 := if "free" ∈ preferences then ["Prefers free/no API key providers"] else []
  let parts4 :=
    if "fast" ∈ preferences then ["Prefers low-latency providers (local data if available)"]
    else []
  let parts5 := if "official" ∈ preferences then ["Prefers official/government sources"] else []
  String.intercalate " â†’ " ([part1] ++ parts2 ++ parts3 ++ parts4 ++ parts5)

/-- `QueryClassifier.classify_query` (lines 52-75). -/
def classify_query (query : String) : Classification :=
  let query_lower := pyLower query
  let dts := extract_data_types query_lower
  let geo := extract_geography query_lower
  let prefs := extract_preferences query_lower
  { original_query := query
    data_types := dts
    geography := geo
    preferences := prefs
    specific_symbols := extract_symbols query
    reasoning := generate_reasoning dts geo prefs }

/-- The scoring-relevant fields of one `API_CONFIGS` registry entry. -/
structure ProviderConfig where
  name : String
  data_types : List String
  geographic_coverage : List String
  requires_api_key : Bool
  free_tier : Bool
  local_available : Bool
  response_time : String
deriving DecidableEq

/-- Registry entry `API_CONFIGS["fred"]` (scoring-relevant fields). -/
def fredConfig : ProviderConfig :=
  { name := "Federal Reserve Economic Data"
    data_types := ["economic_indicators", "interest_rates", "employment", "inflation", "gdp"]
    geographic_coverage := ["US", "International"]
    requires_api_key := true
    free_tier := true
    local_available := true
    response_time := "<10ms (local), ~500ms (API)" }

/-- Registry entry `API_CONFIGS["sec"]` (scoring-relevant fields). -/
def secConfig : ProviderConfig :=
  { name := "SEC EDGAR"
    data_types := ["filings", "financial_statements", "insider_trading", "10-K", "10-Q", "8-K"]
    geographic_coverage := ["US"]
    requires_api_key := false
    free_tier := true
    local_available := true
    response_time := "<50ms (local), ~1000ms (API)" }

/-- Registry entry `API_CONFIGS["bls"]` (scoring-relevant fields). -/
def blsConfig : ProviderConfig :=
  { name := "Bureau of Labor Statistics"
    data_types := ["employment", "cpi", "wages", "productivity", "jobs"]
    geographic_coverage := ["US"]
    requires_api_key := true
    free_tier := true
    local_available := false
    response_time := "~500ms" }

/-- Registry entry `API_CONFIGS["treasury"]` (scoring-relevant fields). -/
def treasuryConfig : ProviderConfig :=
  { name := "US Treasury"
    data_types := ["yield_curves", "treasury_rates", "debt", "revenue"]
    geographic_coverage := ["US"]
    requires_api_key := false
    free_tier := true
    local_available := false
    response_time := "~300ms" }

/-- Registry entry `API_CONFIGS["estat"]` (scoring-relevant fields). -/
def estatConfig : ProviderConfig :=
  { name := "e-Stat (Japan)"
    data_types := ["economic_indicators", "population", "trade", "gdp"]
    geographic_coverage := ["Japan"]
    requires_api_key := true
    free_tier := true
    local_available := false
    response_time := "~800ms" }

/-- Registry entry `API_CONFIGS["ecb"]` (scoring-relevant fields). -/
def ecbConfig : ProviderConfig :=
  { name := "European Central Bank"
    data_types := ["interest_rates", "exchange_rates", "inflation", "monetary_policy"]
    geographic_coverage := ["EU", "Eurozone"]
    requires_api_key := false
    free_tier := true
    local_available := false
    response_time := "~400ms" }

/-- Registry entry `API_CONFIGS["imf"]` (scoring-relevant fields). -/
def imfConfig : ProviderConfig :=
  { name := "International Monetary Fund"
    data_types := ["gdp", "debt", "trade_balance", "reserves"]
    geographic_coverage := ["Global"]
    requires_api_key := false
    free_tier := true
    local_available := false
    response_time := "~600ms" }

/-- Registry entry `API_CONFIGS["worldbank"]` (scoring-relevant fields). -/
def worldbankConfig : ProviderConfig :=
  { name := "World Bank"
    data_types := ["development", "poverty", "education", "health", "gdp"]
    geographic_coverage := ["Global"]
    requires_api_key := false
    free_tier := true
    local_available := false
    response_time := "~700ms" }

/-- Registry entry `API_CONFIGS["oecd"]` (scoring-relevant fields). -/
def oecdConfig : ProviderConfig :=
  { name := "OECD"
    data_types := ["gdp", "employment", "education", "health", "environment"]
    geographic_coverage := ["OECD Countries"]
    requires_api_key := false
    free_tier := true
    local_available := false
    response_time := "~500ms" }

/-- Registry entry `API_CONFIGS["polygon"]` (scoring-relevant fields). -/
def polygonConfig : ProviderConfig :=
  { name := "Polygon.io"
    data_types := ["stocks", "options", "forex", "crypto"]
    geographic_coverage := ["US", "Global"]
    requires_api_key := true
    free_tier := true
    local_available := false
    response_time := "~100ms" }

/-- Registry entry `API_CONFIGS["fmp"]` (scoring-relevant fields). -/
def fmpConfig : ProviderConfig :=
  { name := "Financial Modeling Prep"
    data_types := ["stocks", "fundamentals", "financial_statements", "ratios"]
    geographic_coverage := ["US", "Global"]
    requires_api_key := true
    free_tier := true
    local_available := false
    response_time := "~200ms" }

/-- Registry entry `API_CONFIGS["yahoo"]` (scoring-relevant fields). -/
def yahooConfig : ProviderConfig :=
  { name := "Yahoo Finance"
    data_types := ["stocks", "etfs", "indices", "commodities", "crypto"]
    geographic_coverage := ["Global"]
    requires_api_key := false
    free_tier := true
    local_available := false
    response_time := "~300ms" }

/-- Registry entry `API_CONFIGS["alpha_vantage"]` (scoring-relevant fields). -/
def alpha_vantageConfig : ProviderConfig :=
  { name := "Alpha Vantage"
    data_types := ["stocks", "forex", "crypto", "technical_indicators"]
    geographic_coverage := ["Global"]
    requires_api_key := true
    free_tier := true
    local_available := false
    response_time := "~400ms" }

/-- Registry entry `API_CONFIGS["twelve_data"]` (scoring-relevant fields). -/
def twelve_dataConfig : ProviderConfig :=
  { name := "Twelve Data"
    data_types := ["stocks", "forex", "crypto", "etf", "indices"]
    geographic_coverage := ["Global"]
    requires_api_key := true
    free_tier := true
    local_available := false
    response_time := "~150ms" }

/-- Registry entry `API_CONFIGS["coingecko"]` (scoring-relevant fields). -/
def coingeckoConfig : ProviderConfig :=
  { name := "CoinGecko"
    data_types := ["crypto", "defi", "nft"]
    geographic_coverage := ["Global"]
    requires_api_key := false
    free_tier := true
    local_available := false
    response_time := "~300ms" }

/-- Registry entry `API_CONFIGS["cryptocompare"]` (scoring-relevant fields). -/
def cryptocompareConfig : ProviderConfig :=
  { name := "CryptoCompare"
    data_types := ["crypto", "blockchain", "exchanges"]
    geographic_coverage := ["Global"]
    requires_api_key := true
    free_tier := true
    local_available := false
    response_time := "~100ms" }

/-- Registry entry `API_CONFIGS["benzinga"]` (scoring-relevant fields). -/
def benzingaConfig : ProviderConfig :=
  { name := "Benzinga"
    data_types := ["news", "earnings", "dividends", "splits", "ipos"]
    geographic_coverage := ["US"]
    requires_api_key := true
    free_tier := false
    local_available := false
    response_time := "~100ms" }

/-- Registry entry `API_CONFIGS["newsapi"]` (scoring-relevant fields). -/
def newsapiConfig : ProviderConfig :=
  { name := "NewsAPI"
    data_types := ["news", "headlines"]
    geographic_coverage := ["Global"]
    requires_api_key := true
    free_tier := true
    local_available := false
    response_time := "~200ms" }

/-- Registry entry `API_CONFIGS["quandl"]` (scoring-relevant fields). -/
def quandlConfig : ProviderConfig :=
  { name := "Quandl (NASDAQ Data Link)"
    data_types := ["stocks", "futures", "options", "economic_indicators"]
    geographic_coverage := ["Global"]
    requires_api_key := true
    free_tier := true
    local_available := false
    response_time := "~300ms" }

/-- Registry entry `API_CONFIGS["iex"]` (scoring-relevant fields). -/
def iexConfig : ProviderConfig :=
  { name := "IEX Cloud"
    data_types := ["stocks", "options", "crypto", "forex", "commodities"]
    geographic_coverage := ["US", "Global"]
    requires_api_key := true
    free_tier := true
    local_available := false
    response_time := "~50ms" }

/-- Registry entry `API_CONFIGS["tiingo"]` (scoring-relevant fields). -/
def tiingoConfig : ProviderConfig :=
  { name := "Tiingo"
    data_types := ["stocks", "crypto", "news"]
    geographic_coverage := ["US", "Global"]
    requires_api_key := true
    free_tier := true
    local_available := false
    response_time := "~100ms" }

/-- Registry entry `API_CONFIGS["finnhub"]` (scoring-relevant fields). -/
def finnhubConfig : ProviderConfig :=
  { name := "Finnhub"
    data_types := ["stocks", "forex", "crypto", "news", "sentiment"]
    geographic_coverage := ["Global"]
    requires_api_key := true
    free_tier := true
    local_available := false
    response_time := "~150ms" }

/-- Registry entry `API_CONFIGS["marketstack"]` (scoring-relevant fields). -/
def marketstackConfig : ProviderConfig :=
  { name := "MarketStack"
    data_types := ["stocks", "etfs", "indices"]
    geographic_coverage := ["Global"]
    requires_api_key := true
    free_tier := true
    local_available := false
    response_time := "~200ms" }

/-- The provider registry `API_CONFIGS` of `api_docs_server.py`, as an ordered
association list preserving dict insertion order. -/
def API_CONFIGS : List (String × ProviderConfig) := [
  ("fred", fredConfig),
  ("sec", secConfig),
  ("bls", blsConfig),
  ("treasury", treasuryConfig),
  ("estat", estatConfig),
  ("ecb", ecbConfig),
  ("imf", imfConfig),
  ("worldbank", worldbankConfig),
  ("oecd", oecdConfig),
  ("polygon", polygonConfig),
  ("fmp", fmpConfig),
  ("yahoo", yahooConfig),
  ("alpha_vantage", alpha_vantageConfig),
  ("twelve_data", twelve_dataConfig),
  ("coingecko", coingeckoConfig),
  ("cryptocompare", cryptocompareConfig),
  ("benzinga", benzingaConfig),
  ("newsapi", newsapiConfig),
  ("quandl", quandlConfig),
  ("iex", iexConfig),
  ("tiingo", tiingoConfig),
  ("finnhub", finnhubConfig),
  ("marketstack", marketstackConfig)]

/-- Python `len(set(a) & set(b))`: the number of distinct common elements. -/
def overlapCount (a b : List String) : Nat := (a.toFinset ∩ b.toFinset).card

/-- Python `list(set(a) & set(b))` used for display joins in the match
reasons (the distinct common elements, here in first-list order). -/
def listInter (a b : List String) : List String := a.dedup.filter (fun x => x ∈ b)

/-- The geographic-matching contribution of `_calculate_match_score`
(lines 205-212): 0.5 for the overlap rule, 0.2 for the fallback rule. -/
def geoBonus (query_geo : List String) (cfg : ProviderConfig) : Rat :=
  if "Global" ∈ cfg.geographic_coverage ∨ ∃ g ∈ query_geo, g ∈ cfg.geographic_coverage then 0.5
  else if query_geo = [] ∨ "Global" ∈ query_geo then 0.2
  else 0

/-- The fixed government-source list of `_calculate_match_score` (line 232). -/
def govt_providers : List String :=
  ["fred", "sec", "bls", "treasury", "ecb", "imf", "worldbank", "oecd", "estat"]

/-- The `response_time` heuristic in the "fast" preference branch (lines
226-228). -/
def fast_response (rt : String) : Prop :=
  substr "ms" rt ∧ (substr "<100" rt ∨ substr "<50" rt ∨ substr "<10" rt)

instance instFastRespDecidable (rt : String) : Decidable (fast_response rt) := by
  unfold fast_response; infer_instance

/-- The preference-matching contribution of `_calculate_match_score`
(lines 214-238). -/
def prefBonus (preferences : List String) (cfg : ProviderConfig) (provider_id : String) : Rat :=
  (if "free" ∈ preferences then
    (if cfg.free_tier then 0.5 else 0) + (if !cfg.requires_api_key then 0.3 else 0)
   else 0)
  + (if "fast" ∈ preferences then
      (if cfg.local_available then 1.0 else 0)
        + (if fast_response cfg.response_time then 0.5 else 0)
     else 0)
  + (if "official" ∈ preferences ∧ provider_id ∈ govt_providers then 0.8 else 0)
  + (if "comprehensive" ∈ preferences then (cfg.data_types.length : Rat) * 0.05 else 0)

/-- `ProviderMatcher._calculate_match_score` (lines 187-240).  The Python code
accumulates `score` sequentially and `return 0`s early when both data-type
sets are non-empty but disjoint; here the early return is the outer `if` and
the sequential accumulation is the sum of the three contributions. -/
def calculate_match_score (c : Classification) (cfg : ProviderConfig)
    (provider_id : String) : Rat :=
  if c.data_types ≠ [] ∧ cfg.data_types ≠ [] ∧ overlapCount c.data_types cfg.data_types = 0 then
    0
  else
    let dataScore : Rat :=
      if c.data_types ≠ [] ∧ cfg.data_types ≠ [] then
        (overlapCount c.data_types cfg.data_types : Rat) * 1.0
      else if c.data_types = [] then 0.1
      else 0
    max 0 (dataScore + geoBonus c.geography cfg + prefBonus c.preferences cfg provider_id)

/-- `ProviderMatcher._get_match_reasons` (lines 242-272). -/
def get_match_reasons (c : Classification) (cfg : ProviderConfig) : List String :=
  let matching_types := listInter c.data_types cfg.data_types
  let r1 :=
    if matching_types ≠ [] then
      ["Provides " ++ String.intercalate ", " matching_types ++ " data"]
    else []
  let geo_inter := listInter c.geography cfg.geographic_coverage
  let r2 :=
    if geo_inter ≠ [] then ["Covers " ++ String.intercalate ", " geo_inter]
    else if "Global" ∈ cfg.geographic_coverage then ["Global coverage"]
    else []
  let r3 := if cfg.local_available then ["Local database available (<10ms)"] else []
  let r4 :=
    if cfg.free_tier then ["Free tier available"]
    else if !cfg.requires_api_key then ["No API key required"]
    else []
  r1 ++ r2 ++ r3 ++ r4

/-- One element of the list returned by `match_providers` (lines 171-180). -/
structure MatchEntry where
  provider : String
  name : String
  score : Rat
  match_reasons : List String
  requires_key : Bool
  free_tier : Bool
  local_available : Bool
  response_time : String
deriving DecidableEq

/-- The loop body of `match_providers` (lines 167-180) for one registry item:
the constructed entry when the score is strictly positive, `none` otherwise. -/
def matchEntryFor (c : Classification) (pc : String × ProviderConfig) : Option MatchEntry :=
  let score := calculate_match_score c pc.2 pc.1
  if 0 < score then
    some { provider := pc.1
           name := pc.2.name
           score := score
           match_reasons := get_match_reasons c pc.2
           requires_key := pc.2.requires_api_key
           free_tier := pc.2.free_tier
           local_available := pc.2.local_available
           response_time := pc.2.response_time }
  else none

/-- The accumulation loop of `match_providers` (lines 165-181): one entry per
registry provider whose score is strictly positive, in registry order. -/
def rawMatches (c : Classification) : List MatchEntry :=
  API_CONFIGS.filterMap (matchEntryFor c)

/-- One step of the stable descending insertion sort modelling
`matches.sort(key=lambda x: x["score"], reverse=True)`: the inserted element
goes before the first element whose score is not larger, so earlier elements
win ties. -/
def insertDesc (x : MatchEntry) : List MatchEntry → List MatchEntry
  | [] => [x]
  | y :: ys => if y.score ≤ x.score then x :: y :: ys else y :: insertDesc x ys

/-- Stable sort by descending score (line 183). -/
def sortDesc : List MatchEntry → List MatchEntry
  | [] => []
  | x :: xs => insertDesc x (sortDesc xs)

/-- Python slice `l[:n]` for an arbitrary int `n` (line 185). -/
def pySlice (n : Int) (l : List MatchEntry) : List MatchEntry :=
  if 0 ≤ n then l.take n.toNat else l.take (l.length - (-n).toNat)

/-- `ProviderMatcher.match_providers` (lines 154-185).  The Python default for
`top_n` is 5; callers here always pass it explicitly. -/
def match_providers (c : Classification) (top_n : Int) : List MatchEntry :=
  pySlice top_n (sortDesc (rawMatches c))

/-- Declarative description (the wording of the spec) of one maximal run of
word characters in `l`: `t` occurs at a position bounded on both sides by a
non-word character or by the edge of the string, and consists of word
characters. -/
def IsMaxWordRun (l t : List Char) : Prop :=
  ∃ pre post, l = pre ++ t ++ post ∧ t ≠ [] ∧ (∀ c ∈ t, isWordChar c) ∧
    (∀ c, pre.getLast? = some c → ¬ isWordChar c) ∧
    (∀ c, post.head? = some c → ¬ isWordChar c)

/-- Declarative description (the wording of the spec) of one match of the
ticker pattern: a run of 1-5 consecutive uppercase ASCII letters bounded by
word boundaries. -/
def IsTickerRun (l t : List Char) : Prop :=
  ∃ pre post, l = pre ++ t ++ post ∧ t ≠ [] ∧ t.length ≤ 5 ∧
    (∀ c ∈ t, c.isUpper) ∧
    (∀ c, pre.getLast? = some c → ¬ isWordChar c) ∧
    (∀ c, post.head? = some c → ¬ isWordChar c)

/-! ### General lemmas about the embedding -/

theorem mem_extractByTable {table : List (String × List String)} {q x : String} :
    x ∈ extractByTable table q ↔
      ∃ tk ∈ table, tk.1 = x ∧ ∃ kw ∈ tk.2, substr kw q := by
  simp only [extractByTable, List.mem_map, List.mem_filter, List.any_eq_true,
    decide_eq_true_eq]
  constructor
  · rintro ⟨tk, ⟨htk, kw, hkw, hs⟩, hx⟩
    exact ⟨tk, htk, hx, kw, hkw, hs⟩
  · rintro ⟨tk, htk, hx, kw, hkw, hs⟩
    exact ⟨tk, ⟨htk, kw, hkw, hs⟩, hx⟩

theorem extract_geography_ne_nil (q : String) : extract_geography q ≠ [] := by
  by_cases h : extractByTable geographic_keywords q = [] <;> simp [extract_geography, h]

theorem classify_query_geography (q : String) :
    (classify_query q).geography = extract_geography (pyLower q) := rfl

theorem classify_query_data_types (q : String) :
    (classify_query q).data_types = extract_data_types (pyLower q) := rfl

theorem classify_query_preferences (q : String) :
    (classify_query q).preferences = extract_preferences (pyLower q) := rfl

theorem classify_query_symbols (q : String) :
    (classify_query q).specific_symbols = extract_symbols q := rfl

/-! ### Lemmas about the stable descending sort -/

theorem mem_insertDesc {x y : MatchEntry} {l : List MatchEntry} :
    y ∈ insertDesc x l ↔ y = x ∨ y ∈ l := by
  induction l with
  | nil => simp [insertDesc]
  | cons z zs ih =>
    unfold insertDesc
    split
    · simp
    · simp only [List.mem_cons, ih]
      tauto

theorem insertDesc_perm (x : MatchEntry) (l : List MatchEntry) :
    insertDesc x l ~ x :: l := by
  induction l with
  | nil => rfl
  | cons z zs ih =>
    unfold insertDesc
    split
    · rfl
    · exact ((ih.cons z).trans (List.Perm.swap x z zs))

theorem sortDesc_perm (l : List MatchEntry) : sortDesc l ~ l := by
  induction l with
  | nil => rfl
  | cons x xs ih => exact (insertDesc_perm x (sortDesc xs)).trans (ih.cons x)

theorem sublist_insertDesc (x : MatchEntry) (l : List MatchEntry) :
    l <+ insertDesc x l := by
  induction l with
  | nil => simp [insertDesc]
  | cons z zs ih =>
    unfold insertDesc
    split
    · exact (List.sublist_cons_self x (z :: zs))
    · exact ih.cons₂ z

theorem sortedDesc_insertDesc {x : MatchEntry} {l : List MatchEntry}
    (h : l.Pairwise (fun a b => b.score ≤ a.score)) :
    (insertDesc x l).Pairwise (fun a b => b.score ≤ a.score) := by
  induction l with
  | nil => simp [insertDesc]
  | cons z zs ih =>
    unfold insertDesc
    rw [List.pairwise_cons] at h
    split
    · rename_i hle
      refine List.Pairwise.cons ?_ (List.Pairwise.cons h.1 h.2)
      intro b hb
      rcases List.mem_cons.mp hb with hbz | hbz
      · subst hbz; exact hle
      · exact le_trans (h.1 b hbz) hle
    · rename_i hlt
      push_neg at hlt
      refine List.Pairwise.cons ?_ (ih h.2)
      intro b hb
      rcases mem_insertDesc.mp hb with hbx | hbz
      · subst hbx; exact le_of_lt hlt
      · exact h.1 b hbz

theorem sortDesc_sorted (l : List MatchEntry) :
    (sortDesc l).Pairwise (fun a b => b.score ≤ a.score) := by
  induction l with
  | nil => exact List.Pairwise.nil
  | cons x xs ih => exact sortedDesc_insertDesc ih

theorem pair_sublist_insertDesc {x b : MatchEntry} {l : List MatchEntry}
    (hb : b ∈ l) (hle : b.score ≤ x.score) : [x, b] <+ insertDesc x l := by
  induction l with
  | nil => cases hb
  | cons z zs ih =>
    unfold insertDesc
    split
    · exact (List.singleton_sublist.mpr hb).cons₂ x
    · rename_i hlt
      push_neg at hlt
      rcases List.mem_cons.mp hb with hbz | hbz
      · subst hbz
        exact absurd hle (not_le.mpr hlt)
      · exact (ih hbz).cons z

theorem pair_sublist_sortDesc {a b : MatchEntry} {l : List MatchEntry}
    (h : [a, b] <+ l) (hle : b.score ≤ a.score) : [a, b] <+ sortDesc l := by
  induction l with
  | nil => cases h
  | cons x xs ih =>
    cases h with
    | cons _ h1 =>
      exact (ih h1).trans (sublist_insertDesc x (sortDesc xs))
    | cons₂ _ h1 =>
      have hb : b ∈ sortDesc xs :=
        (sortDesc_perm xs).mem_iff.mpr (List.singleton_sublist.mp h1)
      exact pair_sublist_insertDesc hb hle

theorem pair_sublist_take {α : Type} {a b : α} {L : List α} {n : Nat}
    (hnd : L.Nodup) (hab : [a, b] <+ L) (hb : b ∈ L.take n) : [a, b] <+ L.take n := by
  induction L generalizing n with
  | nil => cases hab
  | cons x xs ih =>
    cases n with
    | zero => simp at hb
    | succ m =>
      simp only [List.take_succ_cons] at hb ⊢
      rw [List.nodup_cons] at hnd
      cases hab with
      | cons _ h1 =>
        have hbxs : b ∈ xs := h1.subset (by simp)
        rcases List.mem_cons.mp hb with hbx | hbt
        · exact absurd (hbx ▸ hbxs) hnd.1
        · exact (ih hnd.2 h1 hbt).cons x
      | cons₂ _ h1 =>
        have hbxs : b ∈ xs := List.singleton_sublist.mp h1
        rcases List.mem_cons.mp hb with hbx | hbt
        · exact absurd (hbx ▸ hbxs) hnd.1
        · exact (List.singleton_sublist.mpr hbt).cons₂ a

/-! ### Structural lemmas about the matcher pipeline -/

theorem matchEntryFor_eq_some {c : Classification} {pc : String × ProviderConfig}
    {m : MatchEntry} :
    matchEntryFor c pc = some m ↔
      0 < calculate_match_score c pc.2 pc.1 ∧
      m = { provider := pc.1
            name := pc.2.name
            score := calculate_match_score c pc.2 pc.1
            match_reasons := get_match_reasons c pc.2
            requires_key := pc.2.requires_api_key
            free_tier := pc.2.free_tier
            local_available := pc.2.local_available
            response_time := pc.2.response_time } := by
  unfold matchEntryFor
  by_cases hs : 0 < calculate_match_score c pc.2 pc.1
  · simp only [hs, if_pos, true_and, Option.some_inj]
    exact eq_comm
  · simp [hs]

theorem mem_rawMatches {c : Classification} {m : MatchEntry} :
    m ∈ rawMatches c ↔ ∃ pc ∈ API_CONFIGS,
      0 < calculate_match_score c pc.2 pc.1 ∧
      m = { provider := pc.1
            name := pc.2.name
            score := calculate_match_score c pc.2 pc.1
            match_reasons := get_match_reasons c pc.2
            requires_key := pc.2.requires_api_key
            free_tier := pc.2.free_tier
            local_available := pc.2.local_available
            response_time := pc.2.response_time } := by
  simp only [rawMatches, List.mem_filterMap, matchEntryFor_eq_some]

theorem rawMatches_score_pos {c : Classification} {m : MatchEntry}
    (h : m ∈ rawMatches c) : 0 < m.score := by
  obtain ⟨pc, _, hs, hm⟩ := mem_rawMatches.mp h
  rw [hm]
  exact hs

theorem rawMatches_provider {c : Classification} {m : MatchEntry}
    (h : m ∈ rawMatches c) :
    ∃ cfg, (m.provider, cfg) ∈ API_CONFIGS ∧
      m.score = calculate_match_score c cfg m.provider := by
  obtain ⟨pc, hpc, _, hm⟩ := mem_rawMatches.mp h
  refine ⟨pc.2, ?_, ?_⟩
  · rw [hm]
    exact hpc
  · rw [hm]

theorem pySlice_eq_take (n : Int) (l : List MatchEntry) :
    ∃ k, pySlice n l = l.take k := by
  unfold pySlice
  split
  · exact ⟨n.toNat, rfl⟩
  · exact ⟨l.length - (-n).toNat, rfl⟩

theorem mem_match_providers {c : Classification} {n : Int} {m : MatchEntry}
    (h : m ∈ match_providers c n) : m ∈ rawMatches c := by
  obtain ⟨k, hk⟩ := pySlice_eq_take n (sortDesc (rawMatches c))
  rw [match_providers, hk] at h
  exact (sortDesc_perm (rawMatches c)).mem_iff.mp ((List.take_sublist k _).subset h)

theorem filterMap_sublist_map {α β : Type} (f : α → Option β) (g : α → β) (l : List α)
    (h : ∀ a b, f a = some b → b = g a) : l.filterMap f <+ l.map g := by
  induction l with
  | nil => simp
  | cons a t ih =>
    rw [List.filterMap_cons, List.map_cons]
    cases hfa : f a with
    | none => exact ih.cons (g a)
    | some b =>
      rw [h a b hfa]
      exact ih.cons₂ (g a)

theorem rawMatches_map_provider_sublist (c : Classification) :
    (rawMatches c).map (fun m => m.provider) <+ API_CONFIGS.map Prod.fst := by
  rw [rawMatches, List.map_filterMap]
  refine filterMap_sublist_map _ _ _ ?_
  intro pc b hb
  cases hfa : matchEntryFor c pc with
  | none => rw [hfa] at hb; cases hb
  | some m =>
    rw [hfa] at hb
    obtain ⟨_, hm⟩ := matchEntryFor_eq_some.mp hfa
    have hb2 : m.provider = b := by simpa using hb
    rw [← hb2, hm]

theorem API_CONFIGS_keys_nodup : (API_CONFIGS.map Prod.fst).Nodup := by
  with_unfolding_all decide

theorem API_CONFIGS_data_types_ne_nil :
    ∀ pc ∈ API_CONFIGS, pc.2.data_types ≠ [] := by
  with_unfolding_all decide

theorem keys_nodup_unique {l : List (String × ProviderConfig)}
    (h : (l.map Prod.fst).Nodup) {k : String} {v w : ProviderConfig}
    (hv : (k, v) ∈ l) (hw : (k, w) ∈ l) : v = w := by
  induction l with
  | nil => cases hv
  | cons p t ih =>
    rw [List.map_cons, List.nodup_cons] at h
    rcases List.mem_cons.mp hv with hv1 | hv1 <;> rcases List.mem_cons.mp hw with hw1 | hw1
    · rw [← hv1] at hw1
      exact congrArg Prod.snd hw1.symm
    · exfalso
      apply h.1
      rw [← hv1]
      exact List.mem_map.mpr ⟨(k, w), hw1, rfl⟩
    · exfalso
      apply h.1
      rw [← hw1]
      exact List.mem_map.mpr ⟨(k, v), hv1, rfl⟩
    · exact ih h.2 hv1 hw1

theorem rawMatches_nodup (c : Classification) : (rawMatches c).Nodup := by
  have h1 : ((rawMatches c).map (fun m => m.provider)).Nodup :=
    API_CONFIGS_keys_nodup.sublist (rawMatches_map_provider_sublist c)
  exact h1.of_map

theorem extract_geography_def (q : String) :
    extract_geography q =
      if extractByTable geographic_keywords q = [] then ["Global"]
      else extractByTable geographic_keywords q := rfl

/-! ### Monotonicity lemmas for appended keywords -/

theorem substr_append_left {kw q : String} (r : String) (h : substr kw q) :
    substr kw (q ++ r) := by
  unfold substr at h ⊢
  rw [String.data_append]
  exact h.trans ⟨[], r.data, by simp⟩

theorem pyLower_append (a b : String) : pyLower (a ++ b) = pyLower a ++ pyLower b := by
  apply String.ext
  simp [pyLower, String.data_append]

theorem mem_extractByTable_append {table : List (String × List String)} {q : String}
    (r : String) {x : String} (h : x ∈ extractByTable table q) :
    x ∈ extractByTable table (q ++ r) := by
  obtain ⟨tk, htk, he, kw, hkw, hs⟩ := mem_extractByTable.mp h
  exact mem_extractByTable.mpr ⟨tk, htk, he, kw, hkw, substr_append_left r hs⟩

theorem classify_data_types_append_subset (q kw : String) :
    (classify_query q).data_types ⊆ (classify_query (q ++ kw)).data_types := by
  intro x hx
  rw [classify_query_data_types, pyLower_append]
  rw [classify_query_data_types] at hx
  exact mem_extractByTable_append (pyLower kw) hx

theorem classify_preferences_append_subset (q kw : String) :
    (classify_query q).preferences ⊆ (classify_query (q ++ kw)).preferences := by
  intro x hx
  rw [classify_query_preferences, pyLower_append]
  rw [classify_query_preferences] at hx
  exact mem_extractByTable_append (pyLower kw) hx

theorem data_type_keywords_lower :
    ∀ tk ∈ data_type_keywords, ∀ k ∈ tk.2, pyLower k = k := by
  with_unfolding_all decide

theorem keyword_detected (q : String) {d kw : String} {kws : List String}
    (htk : (d, kws) ∈ data_type_keywords) (hkw : kw ∈ kws) :
    d ∈ (classify_query (q ++ kw)).data_types := by
  rw [classify_query_data_types, pyLower_append]
  apply mem_extractByTable.mpr
  refine ⟨(d, kws), htk, rfl, kw, hkw, ?_⟩
  have hlow : pyLower kw = kw := data_type_keywords_lower (d, kws) htk kw hkw
  unfold substr
  rw [String.data_append]
  conv_lhs => rw [← hlow]
  exact ⟨(pyLower q).data, [], by simp⟩

theorem overlapCount_mono {a a2 b : List String} (h : a ⊆ a2) :
    overlapCount a b ≤ overlapCount a2 b := by
  apply Finset.card_le_card
  refine Finset.inter_subset_inter ?_ le_rfl
  intro x hx
  rw [List.mem_toFinset] at hx ⊢
  exact h hx

theorem overlapCount_pos {a b : List String} {d : String} (ha : d ∈ a) (hb : d ∈ b) :
    0 < overlapCount a b :=
  Finset.card_pos.mpr
    ⟨d, Finset.mem_inter.mpr ⟨List.mem_toFinset.mpr ha, List.mem_toFinset.mpr hb⟩⟩

theorem ite_prop_mono {P Q : Prop} [Decidable P] [Decidable Q] (h : P → Q) {x : Rat}
    (hx : 0 ≤ x) : (if P then x else 0) ≤ (if Q then x else 0) := by
  by_cases hp : P
  · rw [if_pos hp, if_pos (h hp)]
  · rw [if_neg hp]
    by_cases hq : Q
    · rw [if_pos hq]
      exact hx
    · rw [if_neg hq]

theorem prefBonus_mono {p p2 : List String} (h : p ⊆ p2) (cfg : ProviderConfig)
    (pid : String) : prefBonus p cfg pid ≤ prefBonus p2 cfg pid := by
  unfold prefBonus
  refine add_le_add (add_le_add (add_le_add
      (ite_prop_mono (fun hm => h hm) ?_)
      (ite_prop_mono (fun hm => h hm) ?_))
      (ite_prop_mono (fun hm => ⟨h hm.1, hm.2⟩) ?_))
      (ite_prop_mono (fun hm => h hm) ?_)
  · exact add_nonneg (by split <;> norm_num) (by split <;> norm_num)
  · exact add_nonneg (by split <;> norm_num) (by split <;> norm_num)
  · norm_num
  · exact mul_nonneg (Nat.cast_nonneg _) (by norm_num)

/-! ### Characterization of the word-run scanner (for C7) -/

theorem head_dropWhile_false {p : Char → Bool} {l : List Char} {c : Char}
    (h : (l.dropWhile p).head? = some c) : p c = false := by
  induction l with
  | nil => simp [List.dropWhile] at h
  | cons a t ih =>
    rw [List.dropWhile_cons] at h
    split at h
    · exact ih h
    · rename_i hpa
      rw [List.head?_cons, Option.some_inj] at h
      subst h
      exact Bool.eq_false_iff.mpr hpa

theorem takeWhile_nil_of_head {p : Char → Bool} {post : List Char}
    (h : ∀ c, post.head? = some c → ¬ p c) : post.takeWhile p = [] := by
  cases post with
  | nil => rfl
  | cons a t => exact List.takeWhile_cons_of_neg (h a rfl)

theorem run_eq_takeWhile :
    ∀ (t : List Char), (∀ c ∈ t, isWordChar c) →
      ∀ post : List Char, (∀ c, post.head? = some c → ¬ isWordChar c) →
        (t ++ post).takeWhile isWordChar = t := by
  intro t
  induction t with
  | nil =>
    intro _ post hpost
    rw [List.nil_append]
    exact takeWhile_nil_of_head hpost
  | cons a ts ih =>
    intro hword post hpost
    rw [List.cons_append, List.takeWhile_cons_of_pos (hword a (by simp)),
      ih (fun c hc => hword c (by simp [hc])) post hpost]

theorem takeWhile_append_of_bad {p : Char → Bool} :
    ∀ (pre : List Char), (∃ c ∈ pre, p c = false) → ∀ X : List Char,
      (pre ++ X).takeWhile p = pre.takeWhile p ∧
      (pre ++ X).dropWhile p = pre.dropWhile p ++ X := by
  intro pre
  induction pre with
  | nil =>
    rintro ⟨c, hc, _⟩
    cases hc
  | cons a t ih =>
    rintro ⟨c, hc, hcf⟩ X
    by_cases hpa : p a
    · have hct : c ∈ t := by
        rcases List.mem_cons.mp hc with rfl | h
        · rw [hpa] at hcf
          cases hcf
        · exact h
      have h2 := ih ⟨c, hct, hcf⟩ X
      rw [List.cons_append, List.takeWhile_cons_of_pos hpa, List.takeWhile_cons_of_pos hpa,
        List.dropWhile_cons_of_pos hpa, List.dropWhile_cons_of_pos hpa, h2.1, h2.2]
      exact ⟨rfl, rfl⟩
    · rw [List.cons_append, List.takeWhile_cons_of_neg hpa, List.takeWhile_cons_of_neg hpa,
        List.dropWhile_cons_of_neg hpa, List.dropWhile_cons_of_neg hpa]
      exact ⟨rfl, rfl⟩

theorem getLast?_eq_of_suffix {l₁ l₂ : List Char} (h : l₂ <:+ l₁) (hne : l₂ ≠ []) :
    l₁.getLast? = l₂.getLast? := by
  obtain ⟨s, rfl⟩ := h
  exact List.getLast?_append_of_ne_nil s hne

theorem isMaxWordRun_head {c : Char} {cs : List Char} (hw : isWordChar c) :
    IsMaxWordRun (c :: cs) (c :: cs.takeWhile isWordChar) := by
  refine ⟨[], cs.dropWhile isWordChar, ?_, by simp, ?_, by simp, ?_⟩
  · simp [List.takeWhile_append_dropWhile]
  · intro x hx
    rcases List.mem_cons.mp hx with rfl | hxt
    · exact hw
    · exact List.mem_takeWhile_imp hxt
  · intro c0 h0
    simp [head_dropWhile_false h0]

theorem isMaxWordRun_lift {c : Char} {cs : List Char} (_hw : isWordChar c) {t : List Char}
    (h : IsMaxWordRun (cs.dropWhile isWordChar) t) : IsMaxWordRun (c :: cs) t := by
  obtain ⟨pre, post, hdec, hne, hword, hpre, hpost⟩ := h
  have hpre_ne : pre ≠ [] := by
    intro h0
    subst h0
    rw [List.nil_append] at hdec
    obtain ⟨t0, ts, ht⟩ := List.exists_cons_of_ne_nil hne
    have hh : (cs.dropWhile isWordChar).head? = some t0 := by
      rw [hdec, ht]
      rfl
    have hf := head_dropWhile_false hh
    have hw0 : isWordChar t0 := hword t0 (by rw [ht]; simp)
    rw [hf] at hw0
    cases hw0
  have h2 : cs = cs.takeWhile isWordChar ++ (pre ++ t ++ post) := by
    conv_lhs => rw [← List.takeWhile_append_dropWhile (p := isWordChar) (l := cs)]
    rw [hdec]
  refine ⟨(c :: cs.takeWhile isWordChar) ++ pre, post, ?_, hne, hword, ?_, hpost⟩
  · conv_lhs => rw [h2]
    simp [List.cons_append, List.append_assoc]
  · intro c0 h0
    rw [List.getLast?_append_of_ne_nil _ hpre_ne] at h0
    exact hpre c0 h0

theorem isMaxWordRun_cases {c : Char} {cs : List Char} (hw : isWordChar c) {t : List Char}
    (h : IsMaxWordRun (c :: cs) t) :
    t = c :: cs.takeWhile isWordChar ∨ IsMaxWordRun (cs.dropWhile isWordChar) t := by
  obtain ⟨pre, post, hdec, hne, hword, hpre, hpost⟩ := h
  by_cases hpre0 : pre = []
  · subst hpre0
    rw [List.nil_append] at hdec
    left
    have h2 : (c :: cs).takeWhile isWordChar = t := by
      rw [hdec]
      exact run_eq_takeWhile t hword post hpost
    rw [← h2, List.takeWhile_cons_of_pos hw]
  · right
    have hc0 : pre.getLast? = some (pre.getLast hpre0) := List.getLast?_eq_getLast pre hpre0
    have hbad : isWordChar (pre.getLast hpre0) = false :=
      Bool.eq_false_iff.mpr (hpre _ hc0)
    have hc0mem : pre.getLast hpre0 ∈ pre := List.getLast_mem hpre0
    have hsplit := takeWhile_append_of_bad pre ⟨_, hc0mem, hbad⟩ (t ++ post)
    have hdrop : cs.dropWhile isWordChar = pre.dropWhile isWordChar ++ (t ++ post) := by
      rw [← List.dropWhile_cons_of_pos (l := cs) hw, hdec, List.append_assoc]
      exact hsplit.2
    have hpre2_ne : pre.dropWhile isWordChar ≠ [] := by
      intro h0
      have hall := List.dropWhile_eq_nil_iff.mp h0
      have hx := hall _ hc0mem
      rw [hbad] at hx
      cases hx
    have hlast2 : (pre.dropWhile isWordChar).getLast? = pre.getLast? :=
      (getLast?_eq_of_suffix (List.dropWhile_suffix _) hpre2_ne).symm
    refine ⟨pre.dropWhile isWordChar, post, ?_, hne, hword, ?_, hpost⟩
    · rw [hdrop, List.append_assoc]
    · intro cx hx
      rw [hlast2] at hx
      exact hpre cx hx

theorem isMaxWordRun_cons_of_neg {c : Char} {cs : List Char} (hw : ¬ isWordChar c)
    {t : List Char} : IsMaxWordRun (c :: cs) t ↔ IsMaxWordRun cs t := by
  constructor
  · rintro ⟨pre, post, hdec, hne, hword, hpre, hpost⟩
    cases pre with
    | nil =>
      rw [List.nil_append] at hdec
      obtain ⟨t0, ts, ht⟩ := List.exists_cons_of_ne_nil hne
      rw [ht, List.cons_append] at hdec
      injection hdec with h1 _
      exact absurd (h1 ▸ hword t0 (by rw [ht]; simp)) hw
    | cons p0 pre2 =>
      rw [List.cons_append, List.cons_append] at hdec
      injection hdec with h1 h2
      refine ⟨pre2, post, h2, hne, hword, ?_, hpost⟩
      intro cx hx
      apply hpre cx
      have hpre2ne : pre2 ≠ [] := by
        intro h0
        rw [h0] at hx
        simp at hx
      rw [show (p0 :: pre2) = [p0] ++ pre2 from rfl,
        List.getLast?_append_of_ne_nil _ hpre2ne]
      exact hx
  · rintro ⟨pre, post, hdec, hne, hword, hpre, hpost⟩
    refine ⟨c :: pre, post, ?_, hne, hword, ?_, hpost⟩
    · rw [hdec]
      simp [List.cons_append]
    · intro cx hx
      by_cases hp : pre = []
      · subst hp
        simp at hx
        rw [← hx]
        exact hw
      · rw [show (c :: pre) = [c] ++ pre from rfl,
          List.getLast?_append_of_ne_nil _ hp] at hx
        exact hpre cx hx

theorem mem_wordRuns : ∀ {l t : List Char}, t ∈ wordRuns l ↔ IsMaxWordRun l t := by
  intro l
  induction l using wordRuns.induct with
  | case1 =>
    intro t
    rw [wordRuns]
    simp only [List.not_mem_nil, false_iff]
    rintro ⟨pre, post, hdec, hne, _, _, _⟩
    have h1 := (List.append_eq_nil.mp hdec.symm).1
    have h2 := (List.append_eq_nil.mp h1).2
    exact hne h2
  | case2 c cs hw ih =>
    intro t
    rw [wordRuns, if_pos hw]
    simp only [List.mem_cons]
    constructor
    · rintro (rfl | ht)
      · exact isMaxWordRun_head hw
      · exact isMaxWordRun_lift hw (ih.mp ht)
    · intro h
      rcases isMaxWordRun_cases hw h with h1 | h1
      · exact Or.inl h1
      · exact Or.inr (ih.mpr h1)
  | case3 c cs hw ih =>
    intro t
    rw [wordRuns, if_neg hw]
    rw [ih]
    exact (isMaxWordRun_cons_of_neg hw).symm

theorem upper_isWordChar {c : Char} (h : c.isUpper) : isWordChar c := by
  unfold isWordChar
  simp [Char.isAlphanum, Char.isAlpha, h]

theorem maxRun_upper_iff_ticker {l t : List Char} :
    (IsMaxWordRun l t ∧ t.length ≤ 5 ∧ ∀ c ∈ t, c.isUpper) ↔ IsTickerRun l t := by
  constructor
  · rintro ⟨⟨pre, post, hdec, hne, _, hpre, hpost⟩, hlen, hup⟩
    exact ⟨pre, post, hdec, hne, hlen, hup, hpre, hpost⟩
  · rintro ⟨pre, post, hdec, hne, hlen, hup, hpre, hpost⟩
    exact ⟨⟨pre, post, hdec, hne, fun c hc => upper_isWordChar (hup c hc), hpre, hpost⟩,
      hlen, hup⟩

theorem mem_extract_symbols {q s : String} :
    s ∈ extract_symbols q ↔ IsTickerRun q.data s.data ∧ s ∉ common_words := by
  unfold extract_symbols
  rw [List.mem_dedup, List.mem_filter, List.mem_map]
  constructor
  · rintro ⟨⟨t, htm, hts⟩, hstop⟩
    rw [List.mem_filter] at htm
    have hdata : s.data = t := by
      rw [← hts]
    rw [Bool.and_eq_true, decide_eq_true_eq, List.all_eq_true] at htm
    refine ⟨?_, by simpa using hstop⟩
    apply maxRun_upper_iff_ticker.mp
    rw [hdata]
    exact ⟨mem_wordRuns.mp htm.1, htm.2.1, fun c hc => htm.2.2 c hc⟩
  · rintro ⟨hticker, hstop⟩
    have h1 := maxRun_upper_iff_ticker.mpr hticker
    refine ⟨⟨s.data, ?_, ?_⟩, by simpa using hstop⟩
    · rw [List.mem_filter, Bool.and_eq_true, decide_eq_true_eq, List.all_eq_true]
      exact ⟨mem_wordRuns.mpr h1.1, h1.2.1, fun c hc => h1.2.2 c hc⟩
    · rfl

/-! ### Claim theorems -/

/-- C2 counterexample: on the literal query "real-time Bitcoin prices" the
data-type list is not `["crypto"]` as claimed, because the stocks trigger
"price" occurs inside "prices". -/
theorem c2_realtime_bitcoin_counterexample :
    (classify_query "real-time Bitcoin prices").data_types ≠ ["crypto"] := by
  with_unfolding_all decide

/-- C2 (amended): for the literal input "real-time Bitcoin prices",
`classify_query` returns data_types exactly `["stocks", "crypto"]` (the stocks
keyword "price" occurs inside "prices", and "bitcoin" triggers crypto) and
preferences exactly `[]`; in particular the wording "real-time" does not set
the "fast" preference. -/
theorem c2_realtime_bitcoin_amended :
    (classify_query "real-time Bitcoin prices").data_types = ["stocks", "crypto"] ∧
    (classify_query "real-time Bitcoin prices").preferences = [] := by
  with_unfolding_all decide

/-- C4 counterexample: for the query "global japan" the detected geography is
`["Japan", "Global"]` - "Global" together with another region - and yet the
0.2 geography fallback bonus is added for a provider covering only "US"
(total score 0.3 = 0.1 base + 0.2 fallback), contradicting the claim that the
bonus is never added in that situation. -/
theorem c4_geo_fallback_counterexample :
    (classify_query "global japan").geography = ["Japan", "Global"] ∧
    geoBonus (classify_query "global japan").geography benzingaConfig = 0.2 ∧
    calculate_match_score (classify_query "global japan") benzingaConfig "benzinga" = 0.3 := by
  refine ⟨?_, ?_, ?_⟩ <;> with_unfolding_all decide

/-- C4 (amended): the 0.2 geography fallback bonus of the per-provider score
is added exactly when the geography-overlap rule (provider covers "Global" or
query/provider geography intersect) is false and the query geography is empty
or contains "Global" - membership, not equality with `["Global"]`, so the
bonus is also added when "Global" appears together with other regions. -/
theorem c4_geo_fallback_amended (query_geo : List String) (cfg : ProviderConfig) :
    geoBonus query_geo cfg = 0.2 ↔
      ¬("Global" ∈ cfg.geographic_coverage ∨ ∃ g ∈ query_geo, g ∈ cfg.geographic_coverage) ∧
        (query_geo = [] ∨ "Global" ∈ query_geo) := by
  unfold geoBonus
  split
  · rename_i h1
    constructor
    · intro h
      norm_num at h
    · rintro ⟨h2, _⟩
      exact absurd h1 h2
  · rename_i h1
    split
    · rename_i h2
      exact iff_of_true rfl ⟨h1, h2⟩
    · rename_i h2
      constructor
      · intro h
        norm_num at h
      · rintro ⟨_, h3⟩
        exact absurd h3 h2

theorem c4_geo_fallback_amended_witness :
    geoBonus ["Japan", "Global"] benzingaConfig = 0.2 :=
  (c4_geo_fallback_amended ["Japan", "Global"] benzingaConfig).mpr
    ⟨by with_unfolding_all decide, by with_unfolding_all decide⟩

/-- C8 counterexample: for the query "global" a geography-table keyword
("global", a trigger of the "Global" tag) does occur in the lowercased query,
and yet the resulting geography is exactly `["Global"]`, so "geography equals
["Global"] exactly when no geography keyword occurs" fails. -/
theorem c8_geography_counterexample :
    (classify_query "global").geography = ["Global"] ∧
    ∃ tk ∈ geographic_keywords, ∃ kw ∈ tk.2, substr kw (pyLower "global") := by
  constructor
  · with_unfolding_all decide
  · with_unfolding_all decide

/-- C8 (amended): for every query, the geography list is non-empty, and it
equals `["Global"]` exactly when no keyword of a geography tag other than
"Global" occurs as a substring of the lowercased query (keywords of the
"Global" tag itself may or may not occur). -/
theorem c8_geography_amended (q : String) :
    (classify_query q).geography ≠ [] ∧
    ((classify_query q).geography = ["Global"] ↔
      ∀ tk ∈ geographic_keywords, tk.1 ≠ "Global" →
        ∀ kw ∈ tk.2, ¬ substr kw (pyLower q)) := by
  refine ⟨by rw [classify_query_geography]; exact extract_geography_ne_nil _, ?_⟩
  rw [classify_query_geography, extract_geography_def]
  by_cases hF : extractByTable geographic_keywords (pyLower q) = []
  · rw [if_pos hF]
    refine iff_of_true rfl ?_
    intro tk htk _ kw hkw hs
    have : tk.1 ∈ extractByTable geographic_keywords (pyLower q) :=
      mem_extractByTable.mpr ⟨tk, htk, rfl, kw, hkw, hs⟩
    rw [hF] at this
    cases this
  · rw [if_neg hF]
    constructor
    · intro hFG tk htk hne kw hkw hs
      have : tk.1 ∈ extractByTable geographic_keywords (pyLower q) :=
        mem_extractByTable.mpr ⟨tk, htk, rfl, kw, hkw, hs⟩
      rw [hFG] at this
      exact hne (List.mem_singleton.mp this)
    · intro H
      have hall : ∀ x ∈ extractByTable geographic_keywords (pyLower q), x = "Global" := by
        intro x hx
        obtain ⟨tk, htk, he, kw, hkw, hs⟩ := mem_extractByTable.mp hx
        by_contra hne
        exact H tk htk (by rw [he]; exact hne) kw hkw hs
      have hrep : extractByTable geographic_keywords (pyLower q) =
          List.replicate (extractByTable geographic_keywords (pyLower q)).length "Global" :=
        List.eq_replicate_of_mem hall
      have hsub : extractByTable geographic_keywords (pyLower q) <+
          geographic_keywords.map Prod.fst :=
        (List.filter_sublist _).map Prod.fst
      have hcnt := hsub.count_le "Global"
      have hone : (geographic_keywords.map Prod.fst).count "Global" = 1 := by
        with_unfolding_all decide
      rw [hone, hrep] at hcnt
      simp [List.count_replicate] at hcnt
      have hlen : (extractByTable geographic_keywords (pyLower q)).length = 1 := by
        have := List.length_pos.mpr hF
        omega
      rw [hrep, hlen]
      rfl

theorem c8_geography_amended_witness :
    (classify_query "bitcoin").geography = ["Global"] :=
  (c8_geography_amended "bitcoin").2.mpr (by with_unfolding_all decide)

/-- C9: every element of the list returned by `match_providers` has a strictly
positive score: zero-score providers are dropped before ranking, for every
classification and every top_n. -/
theorem c9_scores_positive (c : Classification) (top_n : Int) :
    ∀ m ∈ match_providers c top_n, 0 < m.score :=
  fun _ hm => rawMatches_score_pos (mem_match_providers hm)

theorem c9_scores_positive_witness :
    0 < (⟨"polygon", "Polygon.io", 1.5,
      ["Provides crypto data", "Covers Global", "Free tier available"],
      true, true, false, "~100ms"⟩ : MatchEntry).score :=
  c9_scores_positive (classify_query "bitcoin") 1 _ (by with_unfolding_all decide)

/-- C1: for every query and every registry provider, if the classified
data-type list is non-empty and the provider's data_types are disjoint from
it, that provider appears in no output of `match_providers`, for any top_n.
(No registry provider has an empty data_types list, so the "empty set"
case of the claim is vacuous over this registry.) -/
theorem c1_data_type_exclusion (q : String) (top_n : Int) (pid : String)
    (cfg : ProviderConfig) (hmem : (pid, cfg) ∈ API_CONFIGS)
    (hne : (classify_query q).data_types ≠ [])
    (hdisj : ∀ t ∈ cfg.data_types, t ∉ (classify_query q).data_types) :
    pid ∉ (match_providers (classify_query q) top_n).map (fun m => m.provider) := by
  intro hin
  obtain ⟨m, hm, hp⟩ := List.mem_map.mp hin
  have hraw := mem_match_providers hm
  obtain ⟨cfg2, hmem2, hscore⟩ := rawMatches_provider hraw
  rw [hp] at hmem2
  have hcfg : cfg2 = cfg := keys_nodup_unique API_CONFIGS_keys_nodup hmem2 hmem
  have hpos : 0 < m.score := rawMatches_score_pos hraw
  rw [hscore, hcfg] at hpos
  have hov : overlapCount (classify_query q).data_types cfg.data_types = 0 := by
    rw [overlapCount, Finset.card_eq_zero, Finset.eq_empty_iff_forall_not_mem]
    intro x hx
    rw [Finset.mem_inter, List.mem_toFinset, List.mem_toFinset] at hx
    exact hdisj x hx.2 hx.1
  have hzero : calculate_match_score (classify_query q) cfg m.provider = 0 := by
    unfold calculate_match_score
    rw [if_pos ⟨hne, API_CONFIGS_data_types_ne_nil (pid, cfg) hmem, hov⟩]
  rw [hzero] at hpos
  exact lt_irrefl 0 hpos

theorem c1_data_type_exclusion_witness :
    "fred" ∉ (match_providers (classify_query "bitcoin") 5).map (fun m => m.provider) :=
  c1_data_type_exclusion "bitcoin" 5 "fred" fredConfig (by with_unfolding_all decide)
    (by with_unfolding_all decide) (by with_unfolding_all decide)

/-- C6: for every classification and top_n, the returned list is sorted in
descending score order, and two included providers with equal scores keep
their registry order: if a precedes b in the per-registry-order candidate
list `rawMatches` with equal scores and b made the returned list, then a
precedes b in the returned list. -/
theorem c6_ranking_stability (c : Classification) (top_n : Int) :
    (match_providers c top_n).Pairwise (fun a b => b.score ≤ a.score) ∧
    ∀ a b : MatchEntry, [a, b] <+ rawMatches c → a.score = b.score →
      b ∈ match_providers c top_n → [a, b] <+ match_providers c top_n := by
  obtain ⟨k, hk⟩ := pySlice_eq_take top_n (sortDesc (rawMatches c))
  have hres : match_providers c top_n = (sortDesc (rawMatches c)).take k := by
    rw [match_providers, hk]
  constructor
  · rw [hres]
    exact (sortDesc_sorted (rawMatches c)).sublist (List.take_sublist k _)
  · intro a b hab heq hb
    have hsorted : [a, b] <+ sortDesc (rawMatches c) :=
      pair_sublist_sortDesc hab (le_of_eq heq.symm)
    have hnd : (sortDesc (rawMatches c)).Nodup :=
      ((sortDesc_perm (rawMatches c)).nodup_iff).mpr (rawMatches_nodup c)
    rw [hres] at hb ⊢
    exact pair_sublist_take hnd hsorted hb

theorem c6_ranking_stability_witness :
    [(⟨"imf", "International Monetary Fund", 0.6, ["Covers Global", "Free tier available"],
       false, true, false, "~600ms"⟩ : MatchEntry),
     ⟨"worldbank", "World Bank", 0.6, ["Covers Global", "Free tier available"],
       false, true, false, "~700ms"⟩] <+ match_providers (classify_query "") 2 :=
  (c6_ranking_stability (classify_query "") 2).2 _ _ (by with_unfolding_all decide)
    (by with_unfolding_all decide) (by with_unfolding_all decide)

/-- C5: for every input string (including the empty string and arbitrary
text) and every top_n, classification is total and well formed - non-empty
geography, all detected tags drawn from the fixed keyword tables - and
matching is total, returning a (possibly empty) list whose entries all name
registry providers with positive scores.  (Freedom from exceptions is
modelled by the totality of these functions.) -/
theorem c5_total_well_formed (q : String) (top_n : Int) :
    (classify_query q).geography ≠ [] ∧
    (∀ t ∈ (classify_query q).data_types, t ∈ data_type_keywords.map Prod.fst) ∧
    (∀ g ∈ (classify_query q).geography, g ∈ geographic_keywords.map Prod.fst) ∧
    (∀ p ∈ (classify_query q).preferences, p ∈ preference_keywords.map Prod.fst) ∧
    ∀ m ∈ match_providers (classify_query q) top_n,
      m.provider ∈ API_CONFIGS.map Prod.fst ∧ 0 < m.score := by
  refine ⟨?_, ?_, ?_, ?_, ?_⟩
  · rw [classify_query_geography]
    exact extract_geography_ne_nil _
  · intro t ht
    rw [classify_query_data_types] at ht
    obtain ⟨tk, htk, he, _⟩ := mem_extractByTable.mp ht
    exact List.mem_map.mpr ⟨tk, htk, he⟩
  · intro g hg
    rw [classify_query_geography, extract_geography_def] at hg
    by_cases hF : extractByTable geographic_keywords (pyLower q) = []
    · rw [if_pos hF] at hg
      rw [List.mem_singleton.mp hg]
      with_unfolding_all decide
    · rw [if_neg hF] at hg
      obtain ⟨tk, htk, he, _⟩ := mem_extractByTable.mp hg
      exact List.mem_map.mpr ⟨tk, htk, he⟩
  · intro p hp
    rw [classify_query_preferences] at hp
    obtain ⟨tk, htk, he, _⟩ := mem_extractByTable.mp hp
    exact List.mem_map.mpr ⟨tk, htk, he⟩
  · intro m hm
    have hraw := mem_match_providers hm
    obtain ⟨cfg, hmem, _⟩ := rawMatches_provider hraw
    exact ⟨List.mem_map.mpr ⟨(m.provider, cfg), hmem, rfl⟩, rawMatches_score_pos hraw⟩

theorem c5_total_well_formed_witness :
    (classify_query "").geography ≠ [] ∧ "Global" ∈ geographic_keywords.map Prod.fst :=
  ⟨(c5_total_well_formed "" 5).1,
   (c5_total_well_formed "" 5).2.2.1 "Global" (by with_unfolding_all decide)⟩

/-- C10: match reasons are computed independently of the score: for the query
"japan" (which names only a geography) and top_n = 23, `match_providers`
returns an entry for "benzinga" with a strictly positive score and an empty
match_reasons list; benzinga has no data-type overlap with the query, no
geographic overlap, no Global coverage, no local data, no free tier, and
requires an API key. -/
theorem c10_empty_reasons_entry :
    (∃ m ∈ match_providers (classify_query "japan") 23,
      m.provider = "benzinga" ∧ m.match_reasons = [] ∧ 0 < m.score) ∧
    listInter (classify_query "japan").data_types benzingaConfig.data_types = [] ∧
    listInter (classify_query "japan").geography benzingaConfig.geographic_coverage = [] ∧
    "Global" ∉ benzingaConfig.geographic_coverage ∧
    benzingaConfig.local_available = false ∧
    benzingaConfig.free_tier = false ∧
    benzingaConfig.requires_api_key = true := by
  refine ⟨?_, ?_, ?_, ?_, ?_, ?_, ?_⟩ <;> with_unfolding_all decide

/-- C3 counterexample: appending the interest_rates keyword "sofr" to the
query "bond u" (a data type that the registry provider "ecb" offers) strictly
DECREASES the computed match score for ecb, from 1.2 to 1.0: the append forms
the substring "us", which switches the detected geography from the default
["Global"] (worth the 0.2 fallback) to ["US"] (worth nothing against the
EU-only coverage of ecb). -/
theorem c3_monotonicity_counterexample :
    ("ecb", ecbConfig) ∈ API_CONFIGS ∧
    ("interest_rates", ["interest rate", "fed funds", "libor", "sofr", "yield", "bond",
      "treasury"]) ∈ data_type_keywords ∧
    "sofr" ∈ ["interest rate", "fed funds", "libor", "sofr", "yield", "bond", "treasury"] ∧
    "interest_rates" ∈ ecbConfig.data_types ∧
    calculate_match_score (classify_query ("bond u" ++ "sofr")) ecbConfig "ecb" <
      calculate_match_score (classify_query "bond u") ecbConfig "ecb" := by
  refine ⟨?_, ?_, ?_, ?_, ?_⟩ <;> with_unfolding_all decide

/-- C3 (amended): for every query q and registry provider, appending a keyword
that triggers a data type contained in the provider's data_types yields a
computed match score that is greater than or equal to the score for q alone,
provided the appended keyword leaves the query's detected geography unchanged
(the counterexample shows the hypothesis is needed: an appended keyword can
create a new geography trigger and lose the 0.2 geography fallback). -/
theorem c3_monotonicity_amended (q kw d pid : String) (cfg : ProviderConfig)
    (_hmem : (pid, cfg) ∈ API_CONFIGS)
    (hkw : ∃ kws, (d, kws) ∈ data_type_keywords ∧ kw ∈ kws)
    (hd : d ∈ cfg.data_types)
    (hgeo : (classify_query (q ++ kw)).geography = (classify_query q).geography) :
    calculate_match_score (classify_query q) cfg pid ≤
      calculate_match_score (classify_query (q ++ kw)) cfg pid := by
  obtain ⟨kws, htk, hkwm⟩ := hkw
  have hsub : (classify_query q).data_types ⊆ (classify_query (q ++ kw)).data_types :=
    classify_data_types_append_subset q kw
  have hpsub : (classify_query q).preferences ⊆ (classify_query (q ++ kw)).preferences :=
    classify_preferences_append_subset q kw
  have hd2 : d ∈ (classify_query (q ++ kw)).data_types := keyword_detected q htk hkwm
  have hone : 0 < overlapCount (classify_query (q ++ kw)).data_types cfg.data_types :=
    overlapCount_pos hd2 hd
  have hcfg_ne : cfg.data_types ≠ [] := by
    intro h0
    rw [h0] at hd
    cases hd
  have hc2_ne : (classify_query (q ++ kw)).data_types ≠ [] := by
    intro h0
    rw [h0] at hd2
    cases hd2
  have hnotex : ¬((classify_query (q ++ kw)).data_types ≠ [] ∧ cfg.data_types ≠ [] ∧
      overlapCount (classify_query (q ++ kw)).data_types cfg.data_types = 0) := by
    rintro ⟨_, _, h0⟩
    omega
  have hpb : prefBonus (classify_query q).preferences cfg pid ≤
      prefBonus (classify_query (q ++ kw)).preferences cfg pid :=
    prefBonus_mono hpsub cfg pid
  unfold calculate_match_score
  rw [if_neg hnotex]
  by_cases hex : (classify_query q).data_types ≠ [] ∧ cfg.data_types ≠ [] ∧
      overlapCount (classify_query q).data_types cfg.data_types = 0
  · rw [if_pos hex]
    exact le_max_left 0 _
  · rw [if_neg hex]
    apply max_le_max le_rfl
    rw [hgeo]
    refine add_le_add (add_le_add ?_ le_rfl) hpb
    by_cases hq1 : (classify_query q).data_types = []
    · rw [if_neg (by simp [hq1]), if_pos hq1, if_pos ⟨hc2_ne, hcfg_ne⟩]
      have h1 : (1 : Rat) ≤
          (overlapCount (classify_query (q ++ kw)).data_types cfg.data_types : Rat) := by
        exact_mod_cast hone
      calc (0.1 : Rat) ≤ 1 := by norm_num
        _ ≤ (overlapCount (classify_query (q ++ kw)).data_types cfg.data_types : Rat) := h1
        _ = (overlapCount (classify_query (q ++ kw)).data_types cfg.data_types : Rat)
              * 1.0 := by norm_num
    · rw [if_pos ⟨hq1, hcfg_ne⟩, if_pos ⟨hc2_ne, hcfg_ne⟩]
      have hc : (overlapCount (classify_query q).data_types cfg.data_types : Rat) ≤
          (overlapCount (classify_query (q ++ kw)).data_types cfg.data_types : Rat) :=
        Nat.cast_le.mpr (overlapCount_mono hsub)
      exact mul_le_mul_of_nonneg_right hc (by norm_num)

theorem c3_monotonicity_amended_witness :
    calculate_match_score (classify_query "xyz") coingeckoConfig "coingecko" ≤
      calculate_match_score (classify_query ("xyz" ++ "bitcoin")) coingeckoConfig
        "coingecko" :=
  c3_monotonicity_amended "xyz" "bitcoin" "crypto" "coingecko" coingeckoConfig
    (by with_unfolding_all decide)
    ⟨["crypto", "bitcoin", "btc", "ethereum", "eth", "cryptocurrency", "defi", "nft"],
      by with_unfolding_all decide, by with_unfolding_all decide⟩
    (by with_unfolding_all decide) (by with_unfolding_all decide)

/-- C7: for every query q, `classify_query(q).specific_symbols` is exactly the
set of maximal runs of 1-5 consecutive uppercase ASCII letters bounded by word
boundaries in the original-case q, deduplicated, with stop-list tokens
(US, UK, EU, GDP, CPI, API, REST, JSON, CSV) removed; a longer uppercase run
contributes nothing since no word boundary delimits a 1-5 letter piece of it. -/
theorem c7_symbol_extraction (q : String) :
    (classify_query q).specific_symbols.Nodup ∧
    ∀ s : String, s ∈ (classify_query q).specific_symbols ↔
      IsTickerRun q.data s.data ∧ s ∉ common_words := by
  rw [classify_query_symbols]
  refine ⟨?_, fun s => mem_extract_symbols⟩
  unfold extract_symbols
  exact List.nodup_dedup _

theorem c7_symbol_extraction_witness :
    IsTickerRun "buy AAPL stock".data "AAPL".data ∧ "AAPL" ∉ common_words :=
  ((c7_symbol_extraction "buy AAPL stock").2 "AAPL").mp (by with_unfolding_all decide)
